import Mathlib

/-!
Shallow embedding of the lexer in `src/src/lexer.rs` of LDM-A/sqrldb.

The source is a hand-rolled SQL lexer: a position model (`Location`,
`Cursor`), a token model (`Token`, `TokenKind`), two recognizers
(`lex_numeric`, `lex_character_delimited` / `lex_string`; the keyword,
symbol and identifier recognizers are commented out in the source), and a
driver `lex` that tries the recognizers in order at the current cursor.

Strings are modelled as `List Char` (the source assumes single-byte ASCII
and reads `input.as_bytes()[i] as char`).  The Rust `while` loops, which
advance `cur.pointer` through the buffer, are modelled as structural
recursion over the list of characters remaining from `cur.pointer`
(`remaining = input.drop cur.pointer`); the cursor arithmetic of the
source is reproduced verbatim, and every branch keeps `remaining` in sync
with `cur.pointer` by construction.  The driver loop is modelled with an
explicit fuel argument; fuel exhaustion returns `none`, and a theorem
shows fuel `source.length + 1` always suffices.
-/

namespace SqrlDb

/-- `Location` from lexer.rs: 1-indexed line and column. -/
structure Location where
  line : Nat
  col : Nat
deriving Repr, DecidableEq

/-- `TokenKind` from lexer.rs. -/
inductive TokenKind where
  | Keyword
  | Symbol
  | Identifier
  | StringLiteral
  | NumericLiteral
deriving Repr, DecidableEq

/-- `Token` from lexer.rs: source text, classification, location of the
first character. -/
structure Token where
  value : List Char
  kind : TokenKind
  loc : Location
deriving Repr, DecidableEq

/-- `Cursor` from lexer.rs: byte offset (`pointer`) plus location. -/
structure Cursor where
  pointer : Nat
  loc : Location
deriving Repr, DecidableEq

/-- The body of `lex_numeric`'s `while (cur.pointer) < input.len()` loop.
`icPointer` is the pointer of the initial cursor `ic`; `cur` is the mutable
cursor; `periodFound` / `expMarkerFound` are the two mutable flags;
`remaining` is the list of characters from `cur.pointer` to the end of the
buffer.  `none` models the loop's early `return None`; `some cur` models
the loop finishing (condition false, or the `break` on a non-digit) with
final cursor `cur`. -/
def lexNumericLoop (icPointer : Nat) (cur : Cursor)
    (periodFound expMarkerFound : Bool) : List Char → Option Cursor
  | [] => some cur
  | c :: rest =>
    -- let c = input.as_bytes()[cur.pointer] as char; cur.loc.col += 1;
    let cur1 : Cursor := { cur with loc := { cur.loc with col := cur.loc.col + 1 } }
    let is_digit : Bool := decide ('0' ≤ c) && decide (c ≤ '9')
    let is_period : Bool := c == '.'
    let is_exp_marker : Bool := c == 'e' || c == 'E'
    -- Rule #1: the first examined character must be a digit or a period.
    if cur1.pointer == icPointer then
      if !is_digit && !is_period then none
      else lexNumericLoop icPointer { cur1 with pointer := cur1.pointer + 1 }
        is_period expMarkerFound rest
    else if is_period then
      if periodFound then none
      else lexNumericLoop icPointer { cur1 with pointer := cur1.pointer + 1 }
        true expMarkerFound rest
    else if is_exp_marker then
      if expMarkerFound then none
      else
        -- `cur.pointer == input.len() - 1`: the marker is the last character.
        match rest with
        | [] => none
        | cNext :: rest2 =>
          let cur2 : Cursor :=
            { pointer := cur1.pointer + 1, loc := { cur1.loc with col := cur1.loc.col + 1 } }
          let cur3 : Cursor :=
            { pointer := cur2.pointer + 1, loc := { cur2.loc with col := cur2.loc.col + 1 } }
          if cNext == '-' || cNext == '+' then
            lexNumericLoop icPointer cur3 true true rest2
          else
            lexNumericLoop icPointer cur2 true true (cNext :: rest2)
    else if !is_digit then some cur1
    else lexNumericLoop icPointer { cur1 with pointer := cur1.pointer + 1 }
      periodFound expMarkerFound rest

/-- `lex_numeric` from lexer.rs.  Runs the scan loop from `ic`; if no
characters were accumulated the result is no match, otherwise the token
value is the slice `input[ic.pointer .. cur.pointer]`. -/
def lex_numeric (input : List Char) (ic : Cursor) : Option (Token × Cursor) :=
  match lexNumericLoop ic.pointer ic false false (input.drop ic.pointer) with
  | none => none
  | some cur =>
    if cur.pointer == ic.pointer then none
    else some
      ({ value := (input.drop ic.pointer).take (cur.pointer - ic.pointer),
         kind := TokenKind.NumericLiteral,
         loc := ic.loc },
       cur)

/-- The body of `lex_character_delimited`'s scan loop.  `icLoc` is the
location of the initial cursor, `value` the accumulated string.
`remaining` is the buffer from `cur.pointer` on.  The source has no
`continue` after the doubled-delimiter branch, so that branch falls
through to the unconditional `value.push(c); col += 1; pointer += 1`:
the doubled branch therefore consumes three positions in total and
appends the delimiter twice.  Reaching the end of the buffer (also by
jumping past it in the doubled branch) is the trailing `return None`. -/
def lexCharDelimLoop (icLoc : Location) (delimiter : Char) (cur : Cursor)
    (value : List Char) : List Char → Option (Token × Cursor)
  | [] => none
  | c :: rest =>
    if c == delimiter then
      match rest with
      | [] =>
        -- cur.pointer + 1 >= input.len(): closing delimiter, return at `cur`.
        some ({ value := value, kind := TokenKind.StringLiteral, loc := icLoc }, cur)
      | cNext :: rest2 =>
        if !(cNext == delimiter) then
          some ({ value := value, kind := TokenKind.StringLiteral, loc := icLoc }, cur)
        else
          -- doubled delimiter: value += delimiter; pointer += 2; col += 2;
          -- then fall through to value.push(c); col += 1; pointer += 1.
          let value2 : List Char := value ++ [delimiter]
          let cur2 : Cursor :=
            { pointer := cur.pointer + 2, loc := { cur.loc with col := cur.loc.col + 2 } }
          let value3 : List Char := value2 ++ [c]
          let cur3 : Cursor :=
            { pointer := cur2.pointer + 1, loc := { cur2.loc with col := cur2.loc.col + 1 } }
          match rest2 with
          | [] => none   -- pointer jumped past the end: loop exits, return None
          | _ :: rest3 => lexCharDelimLoop icLoc delimiter cur3 value3 rest3
    else
      lexCharDelimLoop icLoc delimiter
        { pointer := cur.pointer + 1, loc := { cur.loc with col := cur.loc.col + 1 } }
        (value ++ [c]) rest

/-- `lex_character_delimited` from lexer.rs.  No match on an empty buffer
or when the character at the cursor is not the delimiter; otherwise the
opening delimiter is consumed and the scan loop runs.  (The source indexes
`input.as_bytes()[ic.pointer]` unconditionally after the emptiness check;
an out-of-bounds cursor would panic there, so the `none` in that arm is
unreachable for the in-bounds cursors the driver passes.) -/
def lex_character_delimited (input : List Char) (ic : Cursor)
    (delimiter : Char) : Option (Token × Cursor) :=
  if input.length == 0 then none
  else
    match input.get? ic.pointer with
    | none => none
    | some c =>
      if !(c == delimiter) then none
      else
        lexCharDelimLoop ic.loc delimiter
          { pointer := ic.pointer + 1, loc := { ic.loc with col := ic.loc.col + 1 } }
          [] (input.drop (ic.pointer + 1))

/-- `lex_string` from lexer.rs: character-delimited with a single quote. -/
def lex_string (input : List Char) (ic : Cursor) : Option (Token × Cursor) :=
  lex_character_delimited input ic '\''

/-- One pass of `lex`'s `'lex: while` loop, with explicit fuel.  The
lexers tried, in order, are `lex_string` then `lex_numeric` (the keyword,
symbol and identifier recognizers are commented out in the source).  On a
match the token is pushed unless its value is empty and the loop continues
from the new cursor; if no lexer matches, the error message is built from
the last accepted token and the current location.  `none` models fuel
exhaustion only (the source loop needs no fuel; a theorem shows
`source.length + 1` always suffices). -/
def lexLoop (fuel : Nat) (source : List Char) (cur : Cursor)
    (tokens : List Token) : Option (Except String (List Token)) :=
  match fuel with
  | 0 => none
  | fuel + 1 =>
    if cur.pointer < source.length then
      match lex_string source cur with
      | some (token, newCursor) =>
        lexLoop fuel source newCursor
          (if token.value.isEmpty then tokens else tokens ++ [token])
      | none =>
        match lex_numeric source cur with
        | some (token, newCursor) =>
          lexLoop fuel source newCursor
            (if token.value.isEmpty then tokens else tokens ++ [token])
        | none =>
          let hint : String := match tokens.getLast? with
            | some last => " after " ++ String.mk last.value
            | none => ""
          some (Except.error ("Unable to lex token" ++ hint ++ " at "
            ++ toString cur.loc.line ++ ":" ++ toString cur.loc.col))
    else some (Except.ok tokens)

/-- `lex` from lexer.rs: run the driver loop from offset 0, line 1, col 1.
Fuel `source.length + 1` is always sufficient (proved below), so the
`getD` default is never taken. -/
def lex (source : List Char) : Except String (List Token) :=
  (lexLoop (source.length + 1) source
    { pointer := 0, loc := { line := 1, col := 1 } } []).getD (Except.error "")

/-- The initial cursor used by `lex` and by the tests in lexer.rs
(`make_cursor`: offset 0, line 1, col 1). -/
def makeCursor : Cursor := { pointer := 0, loc := { line := 1, col := 1 } }

deriving instance DecidableEq for Except

/-! ## Helper lemmas -/

/-- The numeric scan loop never moves the cursor backwards: a `some`
result has a pointer at least the pointer it started from. -/
lemma numLoop_le_aux (icp n : Nat) :
    ∀ (rest : List Char) (cur : Cursor) (pf ef : Bool) (cur' : Cursor),
      rest.length ≤ n → lexNumericLoop icp cur pf ef rest = some cur' →
      cur.pointer ≤ cur'.pointer := by
  induction n with
  | zero =>
    intro rest cur pf ef cur' hlen h
    have hr : rest = [] := List.eq_nil_of_length_eq_zero (Nat.le_zero.mp hlen)
    subst hr
    simp only [lexNumericLoop, Option.some.injEq] at h
    subst h
    exact Nat.le_refl _
  | succ n ih =>
    intro rest cur pf ef cur' hlen h
    match rest with
    | [] =>
      simp only [lexNumericLoop, Option.some.injEq] at h
      subst h; exact Nat.le_refl _
    | c :: rest1 =>
      rw [lexNumericLoop.eq_def] at h
      simp only [] at h
      split at h
      · split at h
        · simp at h
        · have := ih rest1 _ _ _ _ (by simpa using hlen) h
          simp at this; omega
      · split at h
        · split at h
          · simp at h
          · have := ih rest1 _ _ _ _ (by simpa using hlen) h
            simp at this; omega
        · split at h
          · split at h
            · simp at h
            · split at h
              · simp at h
              · rename_i cNext rest2
                split at h
                · have := ih rest2 _ _ _ _ (by simp at hlen ⊢; omega) h
                  simp at this; omega
                · have := ih (cNext :: rest2) _ _ _ _ (by simp at hlen ⊢; omega) h
                  simp at this; omega
          · split at h
            · simp only [Option.some.injEq] at h
              subst h
              exact Nat.le_refl _
            · have := ih rest1 _ _ _ _ (by simpa using hlen) h
              simp at this; omega

/-- The delimited scan loop never moves the cursor backwards. -/
lemma strLoop_le_aux (icLoc : Location) (d : Char) (n : Nat) :
    ∀ (rest : List Char) (cur : Cursor) (value : List Char) (t : Token) (cur' : Cursor),
      rest.length ≤ n → lexCharDelimLoop icLoc d cur value rest = some (t, cur') →
      cur.pointer ≤ cur'.pointer := by
  induction n with
  | zero =>
    intro rest cur value t cur' hlen h
    have hr : rest = [] := List.eq_nil_of_length_eq_zero (Nat.le_zero.mp hlen)
    subst hr
    simp [lexCharDelimLoop] at h
  | succ n ih =>
    intro rest cur value t cur' hlen h
    match rest with
    | [] => simp [lexCharDelimLoop] at h
    | c :: rest1 =>
      rw [lexCharDelimLoop.eq_def] at h
      simp only [] at h
      split at h
      · split at h
        · simp only [Option.some.injEq, Prod.mk.injEq] at h
          obtain ⟨-, hc⟩ := h
          subst hc; exact Nat.le_refl _
        · split at h
          · simp only [Option.some.injEq, Prod.mk.injEq] at h
            obtain ⟨-, hc⟩ := h
            subst hc; exact Nat.le_refl _
          · split at h
            · simp at h
            · rename_i rest3
              have := ih rest3 _ _ _ _ (by simp at hlen ⊢; omega) h
              simp at this; omega
      · have := ih rest1 _ _ _ _ (by simpa using hlen) h
        simp at this; omega

/-- Whenever the delimited scan loop succeeds, the character of `rest` at
the returned cursor offset (relative to the offset the loop started from)
is the delimiter itself: every return happens in a closing-delimiter
branch, with the cursor left AT that delimiter, not past it. -/
lemma strLoop_closing_aux (icLoc : Location) (d : Char) (n : Nat) :
    ∀ (rest : List Char) (cur : Cursor) (value : List Char) (t : Token) (cur' : Cursor),
      rest.length ≤ n → lexCharDelimLoop icLoc d cur value rest = some (t, cur') →
      cur'.pointer - cur.pointer < rest.length ∧
      rest.get? (cur'.pointer - cur.pointer) = some d := by
  induction n with
  | zero =>
    intro rest cur value t cur' hlen h
    have hr : rest = [] := List.eq_nil_of_length_eq_zero (Nat.le_zero.mp hlen)
    subst hr
    simp [lexCharDelimLoop] at h
  | succ n ih =>
    intro rest cur value t cur' hlen h
    match rest with
    | [] => simp [lexCharDelimLoop] at h
    | c :: rest1 =>
      rw [lexCharDelimLoop.eq_def] at h
      simp only [] at h
      split at h
      · rename_i hcd
        have hcd' : c = d := by simpa using hcd
        split at h
        · simp only [Option.some.injEq, Prod.mk.injEq] at h
          obtain ⟨-, hc⟩ := h
          subst hc
          subst hcd'
          simp
        · split at h
          · simp only [Option.some.injEq, Prod.mk.injEq] at h
            obtain ⟨-, hc⟩ := h
            subst hc
            subst hcd'
            simp
          · split at h
            · simp at h
            · rename_i cNext rest2 hnd x rest3
              have hmono := strLoop_le_aux icLoc d rest3.length rest3 _ _ _ _ (Nat.le_refl _) h
              have hih := ih rest3 _ _ _ _ (by simp at hlen ⊢; omega) h
              simp only at hmono hih
              have hj : cur'.pointer - cur.pointer = (cur'.pointer - (cur.pointer + 3)) + 3 := by
                omega
              rw [hj]
              refine ⟨by simp; omega, ?_⟩
              show (c :: cNext :: x :: rest3).get? ((cur'.pointer - (cur.pointer + 3)) + 3) = some d
              simpa using hih.2
      · rename_i hcd
        have hmono := strLoop_le_aux icLoc d rest1.length rest1 _ _ _ _ (Nat.le_refl _) h
        have hih := ih rest1 _ _ _ _ (by simpa using hlen) h
        simp only at hmono hih
        have hj : cur'.pointer - cur.pointer = (cur'.pointer - (cur.pointer + 1)) + 1 := by
          omega
        rw [hj]
        refine ⟨by simp; omega, ?_⟩
        simpa using hih.2

/-- A successful `lex_string` leaves the returned cursor AT the closing
delimiter: the offset is in bounds and the buffer holds a single quote
there (the closing quote is not consumed). -/
lemma lexString_closing (input : List Char) (ic : Cursor) (t : Token) (c' : Cursor)
    (h : lex_string input ic = some (t, c')) :
    c'.pointer < input.length ∧ input.get? c'.pointer = some '\'' := by
  unfold lex_string lex_character_delimited at h
  split at h
  · simp at h
  · split at h
    · simp at h
    · split at h
      · simp at h
      · have hmono := strLoop_le_aux ic.loc '\'' (input.drop (ic.pointer + 1)).length
          _ _ _ _ _ (Nat.le_refl _) h
        have hcl := strLoop_closing_aux ic.loc '\'' (input.drop (ic.pointer + 1)).length
          _ _ _ _ _ (Nat.le_refl _) h
        simp only at hmono hcl
        obtain ⟨hlt, hget⟩ := hcl
        rw [List.length_drop] at hlt
        rw [List.get?_drop] at hget
        have harith : ic.pointer + 1 + (c'.pointer - (ic.pointer + 1)) = c'.pointer := by
          omega
        rw [harith] at hget
        exact ⟨by omega, hget⟩

/-- A successful `lex_numeric` strictly advances the cursor and returns a
non-empty token value. -/
lemma lexNumeric_progress (input : List Char) (ic : Cursor) (t : Token) (c' : Cursor)
    (h : lex_numeric input ic = some (t, c')) :
    ic.pointer < c'.pointer ∧ t.value ≠ [] := by
  unfold lex_numeric at h
  split at h
  · simp at h
  · rename_i cur hl
    split at h
    · simp at h
    · rename_i hne
      simp only [Option.some.injEq, Prod.mk.injEq] at h
      obtain ⟨ht, hc⟩ := h
      subst hc
      have hge : ic.pointer ≤ cur.pointer :=
        numLoop_le_aux ic.pointer (input.drop ic.pointer).length _ _ _ _ _ (Nat.le_refl _) hl
      have hlt : ic.pointer < cur.pointer := by
        simp only [beq_iff_eq] at hne; omega
      have hin : ic.pointer < input.length := by
        by_contra hle
        have hdrop : input.drop ic.pointer = [] := List.drop_eq_nil_of_le (by omega)
        rw [hdrop] at hl
        simp only [lexNumericLoop, Option.some.injEq] at hl
        subst hl; omega
      refine ⟨hlt, ?_⟩
      have hval : t.value.length = min (cur.pointer - ic.pointer) (input.length - ic.pointer) := by
        rw [← ht]
        simp [List.length_take, List.length_drop]
      intro hnil
      rw [hnil, List.length_nil] at hval
      omega

/-- A successful `lex_string` strictly advances the cursor (it consumed at
least the opening delimiter). -/
lemma lexString_progress (input : List Char) (ic : Cursor) (t : Token) (c' : Cursor)
    (h : lex_string input ic = some (t, c')) : ic.pointer < c'.pointer := by
  unfold lex_string lex_character_delimited at h
  split at h
  · simp at h
  · split at h
    · simp at h
    · split at h
      · simp at h
      · have := strLoop_le_aux ic.loc '\'' (input.drop (ic.pointer + 1)).length
          _ _ _ _ _ (Nat.le_refl _) h
        simp at this; omega

/-- Fuel `source.length - cur.pointer + 1` suffices for the driver loop:
every committed recognizer result strictly advances the cursor, so the
loop runs at most length-of-buffer iterations. -/
lemma lexLoop_fuel (source : List Char) :
    ∀ (fuel : Nat) (cur : Cursor) (tokens : List Token),
      source.length - cur.pointer < fuel →
      (lexLoop fuel source cur tokens).isSome = true := by
  intro fuel
  induction fuel with
  | zero => intro cur tokens h; omega
  | succ fuel ih =>
    intro cur tokens h
    rw [lexLoop]
    split
    · rename_i hin
      split
      · rename_i tok nc hs
        have hp := lexString_progress _ _ _ _ hs
        exact ih nc _ (by omega)
      · split
        · rename_i tok nc hn
          have hp := (lexNumeric_progress _ _ _ _ hn).1
          exact ih nc _ (by omega)
        · simp
    · simp

/-- `lex` is exactly the driver loop run with sufficient fuel. -/
lemma lexLoop_lex (source : List Char) :
    lexLoop (source.length + 1) source makeCursor [] = some (lex source) := by
  have hs := lexLoop_fuel source (source.length + 1) makeCursor [] (by simp [makeCursor])
  cases hval : lexLoop (source.length + 1) source makeCursor [] with
  | none => rw [hval] at hs; simp at hs
  | some r => simp [lex, makeCursor] at hval ⊢; simp [hval]

/-- A decimal digit satisfies the numeric scan loop's digit test and is
neither a period nor an exponent marker. -/
lemma digit_not_special (c : Char) (h0 : '0' ≤ c) (h9 : c ≤ '9') :
    (decide ('0' ≤ c) && decide (c ≤ '9')) = true ∧ (c == '.') = false ∧
      (c == 'e' || c == 'E') = false := by
  refine ⟨by simp [h0, h9], ?_, ?_⟩
  · rw [beq_eq_false_iff_ne]
    rintro rfl
    exact absurd h0 (by decide)
  · rw [Bool.or_eq_false_iff]
    constructor <;> rw [beq_eq_false_iff_ne] <;> rintro rfl
    · exact absurd h9 (by decide)
    · exact absurd h9 (by decide)

/-- On an all-digit remainder the numeric scan loop consumes everything,
advancing pointer and column by the number of characters. -/
lemma numLoop_digits (rest : List Char) :
    ∀ (cur : Cursor) (pf ef : Bool),
      (∀ c ∈ rest, '0' ≤ c ∧ c ≤ '9') → cur.pointer ≠ 0 →
      lexNumericLoop 0 cur pf ef rest =
        some { pointer := cur.pointer + rest.length,
               loc := { line := cur.loc.line, col := cur.loc.col + rest.length } } := by
  induction rest with
  | nil =>
    intro cur pf ef _ _
    simp [lexNumericLoop]
  | cons c rest ih =>
    intro cur pf ef hdig hne
    obtain ⟨h1, h2, h3⟩ :=
      digit_not_special c (hdig c (by simp)).1 (hdig c (by simp)).2
    have hne' : (cur.pointer == (0 : Nat)) = false := by
      simpa using hne
    rw [lexNumericLoop.eq_def]
    simp only [hne', h1, h2, h3, Bool.not_true, Bool.and_false, Bool.false_eq_true, if_false,
      Bool.not_false, Bool.and_true]
    rw [ih _ pf ef (fun x hx => hdig x (by simp [hx])) (Nat.succ_ne_zero _)]
    simp only [Option.some.injEq, Cursor.mk.injEq, Location.mk.injEq, List.length_cons]
    exact ⟨by omega, trivial, by omega⟩

/-! ## Claim theorems -/

set_option maxHeartbeats 4000000 in
/-- Claim C1. The claim says `lex("SELECT * FROM t;")` returns the token
sequence Keyword select, Symbol *, Keyword from, Identifier t, Symbol `;`
via recognizers tried in priority order keyword, symbol, string, numeric,
identifier.  The committed code has only the string and numeric
recognizers (keyword, symbol and identifier are commented out) and no
whitespace skipping, so `lex` fails immediately at 1:1 on this input. -/
theorem claim_C1_driver_errors_on_select :
    lex "SELECT * FROM t;".data = Except.error "Unable to lex token at 1:1" := by
  decide

set_option maxHeartbeats 4000000 in
/-- Claim C2. The claim says an opening delimiter with no unescaped
closing delimiter before end of buffer yields a distinct fatal
unterminated-literal error.  The code instead returns `None`, the very
value used for "this recognizer does not apply": `lex_string` on the
committed input is indistinguishable from a silent no-match. -/
theorem claim_C2_unterminated_returns_no_match :
    lex_string "'unterminated".data makeCursor = none := by
  decide

set_option maxHeartbeats 4000000 in
/-- Claim C3. The claim says a doubled delimiter contributes exactly one
delimiter character, so `lex_string("'O''Brien'")` should give value
`O'Brien`.  The doubled-delimiter branch of the code lacks a `continue`:
it appends the delimiter, advances by two, and then falls through to the
unconditional push of the current character and a further advance, so it
appends the delimiter twice and skips the character after the pair.  The
result is value `O''rien` (the `B` is lost), not `O'Brien`. -/
theorem claim_C3_doubled_delimiter_mangled :
    lex_string "'O''Brien'".data makeCursor =
      some ({ value := "O''rien".data, kind := TokenKind.StringLiteral,
              loc := { line := 1, col := 1 } },
            { pointer := 9, loc := { line := 1, col := 10 } }) ∧
      "O''rien".data ≠ "O'Brien".data := by
  exact ⟨by decide, by decide⟩

set_option maxHeartbeats 4000000 in
/-- Claim C4, counterexample. The claim says the returned cursor offset of
`lex_string("'SQL'")` equals the length of the input (5, one past the
closing quote); the code returns offset 4, at the closing quote, which is
also what the unit test in lexer.rs asserts (`cur.pointer == len - 1`). -/
theorem claim_C4_counterexample :
    lex_string "'SQL'".data makeCursor =
      some ({ value := "SQL".data, kind := TokenKind.StringLiteral,
              loc := { line := 1, col := 1 } },
            { pointer := 4, loc := { line := 1, col := 5 } }) ∧
      (4 : Nat) ≠ "'SQL'".data.length := by
  exact ⟨by decide, by decide⟩

set_option maxHeartbeats 4000000 in
/-- Claim C4, amended. On EVERY successful string match the returned
cursor is positioned AT the closing delimiter, which is not consumed: the
returned offset is in bounds and the buffer holds the delimiter there.
In particular `lex_string("'SQL'")` returns `StringLiteral` value `SQL`
with cursor offset 4, the input length minus one. -/
theorem claim_C4_cursor_at_closing_quote :
    (∀ (input : List Char) (ic : Cursor) (t : Token) (c' : Cursor),
        lex_string input ic = some (t, c') →
        c'.pointer < input.length ∧ input.get? c'.pointer = some '\'') ∧
    lex_string "'SQL'".data makeCursor =
      some ({ value := "SQL".data, kind := TokenKind.StringLiteral,
              loc := { line := 1, col := 1 } },
            { pointer := 4, loc := { line := 1, col := 5 } }) ∧
    (4 : Nat) = "'SQL'".data.length - 1 := by
  exact ⟨lexString_closing, by decide, by decide⟩

/-- Claim C4, witness: instantiating the universal clause at the input
`'SQL'` and its successful match, offset 4 is in bounds and the buffer
holds the closing quote there. -/
theorem claim_C4_witness :
    (4 : Nat) < "'SQL'".data.length ∧ "'SQL'".data.get? 4 = some '\'' :=
  claim_C4_cursor_at_closing_quote.1 "'SQL'".data makeCursor
    { value := "SQL".data, kind := TokenKind.StringLiteral, loc := { line := 1, col := 1 } }
    { pointer := 4, loc := { line := 1, col := 5 } } (by decide)

/-- Claim C5. Whenever the numeric scan loop, past its first character
(`cur.pointer ≠ icPointer`), meets a period while a period or exponent
marker has already been seen (`periodFound = true`), the whole match is
aborted with `none` — no truncated token; in particular
`lex_numeric("1.2.3")` is a no-match, not `NumericLiteral("1.2")`. -/
theorem claim_C5_second_period_aborts :
    (∀ (icp : Nat) (cur : Cursor) (ef : Bool) (rest : List Char),
        cur.pointer ≠ icp → lexNumericLoop icp cur true ef ('.' :: rest) = none) ∧
    lex_numeric "1.2.3".data makeCursor = none := by
  constructor
  · intro icp cur ef rest h
    have h' : (cur.pointer == icp) = false := by simpa using h
    rw [lexNumericLoop.eq_def]
    simp [h']
  · decide

/-- Claim C5, witness: the loop state reached while scanning `1.2.3` at
its second period (offset 3, a period already seen) aborts with none. -/
theorem claim_C5_witness :
    lexNumericLoop 0 { pointer := 3, loc := { line := 1, col := 4 } } true false
      ('.' :: ['3']) = none :=
  claim_C5_second_period_aborts.1 0 { pointer := 3, loc := { line := 1, col := 4 } }
    false ['3'] (by decide)

set_option maxHeartbeats 4000000 in
/-- Claim C6, counterexample. The claim says `lex_numeric("1e+")` (sign at
end of buffer) is a hard failure; in the code the end-of-buffer check only
fires when the exponent marker itself is the last character, so after the
sign is consumed the loop simply ends and the match succeeds with value
`1e+` and the whole input consumed. -/
theorem claim_C6_counterexample :
    lex_numeric "1e+".data makeCursor =
      some ({ value := "1e+".data, kind := TokenKind.NumericLiteral,
              loc := { line := 1, col := 1 } },
            { pointer := 3, loc := { line := 1, col := 5 } }) := by
  decide

set_option maxHeartbeats 4000000 in
/-- Claim C6, amended. `lex_numeric("1e")` fails (exponent marker is the
last character); `lex_numeric("1e+")` succeeds with value `1e+`, all input
consumed; `lex_numeric("1e+x")` succeeds with value `1e+`, stopping at the
first non-digit after the sign. -/
theorem claim_C6_exponent_amended :
    lex_numeric "1e".data makeCursor = none ∧
    lex_numeric "1e+".data makeCursor =
      some ({ value := "1e+".data, kind := TokenKind.NumericLiteral,
              loc := { line := 1, col := 1 } },
            { pointer := 3, loc := { line := 1, col := 5 } }) ∧
    lex_numeric "1e+x".data makeCursor =
      some ({ value := "1e+".data, kind := TokenKind.NumericLiteral,
              loc := { line := 1, col := 1 } },
            { pointer := 3, loc := { line := 1, col := 6 } }) := by
  exact ⟨by decide, by decide, by decide⟩

/-- Claim C7. For every non-empty string of decimal digits `d`,
`lex_numeric` at the initial cursor succeeds, consumes all of `d`
(returned offset equals the length of `d`), and the token value is `d`
itself with kind `NumericLiteral`. -/
theorem claim_C7_digit_strings :
    ∀ (d : List Char), d ≠ [] → (∀ c ∈ d, '0' ≤ c ∧ c ≤ '9') →
      lex_numeric d makeCursor =
        some ({ value := d, kind := TokenKind.NumericLiteral, loc := { line := 1, col := 1 } },
              { pointer := d.length, loc := { line := 1, col := d.length + 1 } }) := by
  intro d hne hdig
  match d, hne with
  | c :: rest, _ =>
    obtain ⟨h1, h2, h3⟩ :=
      digit_not_special c (hdig c (by simp)).1 (hdig c (by simp)).2
    unfold lex_numeric
    rw [lexNumericLoop.eq_def]
    simp only [makeCursor, List.drop_zero, h1, h2, h3, Bool.not_true, Bool.and_false,
      Bool.not_false, Bool.and_true, beq_self_eq_true, if_true, Bool.false_eq_true, if_false]
    rw [numLoop_digits rest _ false false (fun x hx => hdig x (by simp [hx])) (Nat.succ_ne_zero _)]
    simp
    omega

/-- Claim C7, witness: the digit string `42` is lexed whole. -/
theorem claim_C7_witness :
    lex_numeric "42".data makeCursor =
      some ({ value := "42".data, kind := TokenKind.NumericLiteral,
              loc := { line := 1, col := 1 } },
            { pointer := "42".data.length,
              loc := { line := 1, col := "42".data.length + 1 } }) :=
  claim_C7_digit_strings "42".data (by decide) (by decide)

set_option maxHeartbeats 4000000 in
/-- Claim C8, counterexample. The claim says every successful recognizer
result carries a non-empty token value.  `lex_string` on the two-character
input consisting of just two quotes (the empty string literal), at the
in-bounds initial cursor, succeeds with an EMPTY value (the driver even
guards `!token.value.is_empty()` before pushing). -/
theorem claim_C8_counterexample :
    makeCursor.pointer < "''".data.length ∧
    lex_string "''".data makeCursor =
      some ({ value := [], kind := TokenKind.StringLiteral, loc := { line := 1, col := 1 } },
            { pointer := 1, loc := { line := 1, col := 2 } }) := by
  exact ⟨by decide, by decide⟩

/-- Claim C8, amended. A successful recognizer result always has a cursor
whose offset is strictly greater than the input offset; the token value is
additionally non-empty for `lex_numeric`, while `lex_string` may return an
empty value (for the empty literal). -/
theorem claim_C8_progress_amended :
    ∀ (input : List Char) (ic : Cursor) (t : Token) (c' : Cursor),
      (lex_numeric input ic = some (t, c') → ic.pointer < c'.pointer ∧ t.value ≠ []) ∧
      (lex_string input ic = some (t, c') → ic.pointer < c'.pointer) := by
  intro input ic t c'
  exact ⟨lexNumeric_progress input ic t c', lexString_progress input ic t c'⟩

/-- Claim C8, witness: on input `1` the numeric recognizer strictly
advances the cursor and produces a non-empty value. -/
theorem claim_C8_witness :
    makeCursor.pointer < (1 : Nat) ∧ ("1".data : List Char) ≠ [] :=
  (claim_C8_progress_amended "1".data makeCursor
      { value := "1".data, kind := TokenKind.NumericLiteral, loc := { line := 1, col := 1 } }
      { pointer := 1, loc := { line := 1, col := 2 } }).1 (by decide)

set_option maxHeartbeats 4000000 in
/-- Claim C9. The claim says consuming a newline resets col to 1 and
increments line, so a failure past a newline reports line greater than 1.
No code path ever touches `line` (the recognizers only increment `col`):
lexing a string literal containing a newline and then hitting an
unlexable position reports the failure at line 1 — here `1:5` after the
literal `a`-newline-`b` was consumed. -/
theorem claim_C9_line_never_increments :
    lex "'a\nb'x".data = Except.error "Unable to lex token after a\nb at 1:5" := by
  decide

/-- Claim C10. The driver loop terminates on every finite buffer: any
fuel exceeding `source.length - cur.pointer` is enough for `lexLoop` to
reach a result (each committed recognizer strictly advances the cursor),
and `lex` is that loop run with fuel `source.length + 1`. -/
theorem claim_C10_driver_terminates :
    (∀ (source : List Char) (cur : Cursor) (tokens : List Token) (fuel : Nat),
        source.length - cur.pointer < fuel → (lexLoop fuel source cur tokens).isSome = true) ∧
    (∀ source : List Char,
        lexLoop (source.length + 1) source makeCursor [] = some (lex source)) := by
  exact ⟨fun source cur tokens fuel h => lexLoop_fuel source fuel cur tokens h, lexLoop_lex⟩

/-- Claim C10, witness: fuel 2 suffices for the one-character buffer `1`. -/
theorem claim_C10_witness :
    (lexLoop 2 "1".data makeCursor []).isSome = true :=
  claim_C10_driver_terminates.1 "1".data makeCursor [] 2 (by decide)

end SqrlDb
